import Mathlib

/-!
# AgentHub IoT client (`packages/agenthub-iot-cpp/src/AgentHub.cpp`)

A shallow embedding of the `AgentHub` class and the properties of its
identity hashing, payment-data generation, registration and relay operations.

Modelling conventions.

* An Arduino `String` is a Lean `String`; `length()` is the byte count
  (`String.utf8ByteSize`).
* The member fields of the class are the structure `AgentHub`; every member
  function takes the object as its first explicit argument `self`.
* Everything outside the class that answers a question or receives an effect
  is the structure `Env`: the answers of `WiFi.status()` and `millis()` (one per
  call, in call order), the HTTP peer, the log of POST requests handed to
  `HTTPClient`, and the log of messages handed to `signMessage`.
* The libraries the class links against (SHA256, ArduinoJson) are not part of
  the repository; they are the structure `Platform`, over which the general
  theorems quantify. Where a statement is about the text of a response, the
  JSON reader is the strict reader `JsonText.deserializeJson`.
-/

/-! ## Constants of `AgentHub.h` and of the Arduino core -/

/-- The macro `AGENTHUB_FUJI_RPC`. -/
def AGENTHUB_FUJI_RPC : String := "https://api.avax-test.network/ext/bc/C/rpc"

/-- The macro `AGENTHUB_MAINNET_RPC`. -/
def AGENTHUB_MAINNET_RPC : String := "https://api.avax.network/ext/bc/C/rpc"

/-- The macro `AGENTHUB_X402_API`. -/
def AGENTHUB_X402_API : String := "http://localhost:3000/api/x402/pay"

/-- The macro `AGENTHUB_REGISTRY_ADDRESS`. -/
def AGENTHUB_REGISTRY_ADDRESS : String := "0x6750Ed798186b4B5a7441D0f46Dd36F372441306"

/-- The value `WL_CONNECTED` of the enumeration `wl_status_t` (Arduino WiFi library). -/
def WL_CONNECTED : Nat := 3

/-! ## JSON documents (ArduinoJson) -/

/-- The content of a `JsonDocument`. -/
inductive JsonVariant where
  | null
  | boolean (b : Bool)
  | integer (n : Int)
  | real (literal : String)
  | string (s : String)
  | array (items : List JsonVariant)
  | object (members : List (String × JsonVariant))

namespace JsonVariant

/-- Replace the value stored under `key`, or append the member when the key is new. -/
def setMember (key : String) (value : JsonVariant) :
    List (String × JsonVariant) → List (String × JsonVariant)
  | [] => [(key, value)]
  | (k, v) :: rest =>
    if k = key then (k, value) :: rest else (k, v) :: setMember key value rest

/-- The assignment `doc[key] = value`: an empty document becomes an object. -/
def set (doc : JsonVariant) (key : String) (value : JsonVariant) : JsonVariant :=
  match doc with
  | .null => .object [(key, value)]
  | .object members => .object (setMember key value members)
  | other => other

/-- The query `doc.containsKey(key)`: the document is an object with a member `key`. -/
def containsKey (doc : JsonVariant) (key : String) : Bool :=
  match doc with
  | .object members => members.any (fun m => m.1 == key)
  | _ => false

/-- The read `doc[key]`: the value of the first member `key` of an object. -/
def get? (doc : JsonVariant) (key : String) : Option JsonVariant :=
  match doc with
  | .object members => (members.find? (fun m => m.1 == key)).map Prod.snd
  | _ => none

/-- The read `doc[key].as<String>()`: the member `key` when it holds a string. -/
def getString? (doc : JsonVariant) (key : String) : Option String :=
  match doc.get? key with
  | some (.string s) => some s
  | _ => none

/-- The read of an integer member `key`. -/
def getInteger? (doc : JsonVariant) (key : String) : Option Int :=
  match doc.get? key with
  | some (.integer n) => some n
  | _ => none

/-- Escape one character of a JSON string literal. -/
def escapeChar (c : Char) : String :=
  if c = '"' then "\\\""
  else if c = '\\' then "\\\\"
  else if c = '\n' then "\\n"
  else if c = '\r' then "\\r"
  else if c = '\t' then "\\t"
  else String.singleton c

/-- A quoted JSON string literal. -/
def quote (s : String) : String :=
  "\"" ++ String.join (s.data.map escapeChar) ++ "\""

mutual
/-- Minified JSON text of a document. -/
def minified : JsonVariant → String
  | .null => "null"
  | .boolean b => if b then "true" else "false"
  | .integer n => toString n
  | .real literal => literal
  | .string s => quote s
  | .array items => "[" ++ minifiedItems items ++ "]"
  | .object members => "\x7b" ++ minifiedMembers members ++ "\x7d"
/-- Minified JSON text of the items of an array. -/
def minifiedItems : List JsonVariant → String
  | [] => ""
  | [x] => x.minified
  | x :: xs => x.minified ++ "," ++ minifiedItems xs
/-- Minified JSON text of the members of an object. -/
def minifiedMembers : List (String × JsonVariant) → String
  | [] => ""
  | [(k, v)] => quote k ++ ":" ++ v.minified
  | (k, v) :: ms => quote k ++ ":" ++ v.minified ++ "," ++ minifiedMembers ms
end

end JsonVariant

/-! ## JSON text -/

namespace JsonText

/-- JSON white space: space, tab, line feed, carriage return. -/
def isSpace (c : Char) : Bool :=
  c = ' ' || c = '\t' || c = '\n' || c = '\r'

/-- Drop leading white space. -/
def skipSpace (cs : List Char) : List Char :=
  cs.dropWhile isSpace

/-- The value of a hexadecimal digit of either case. -/
def hexDigitValue (c : Char) : Option Nat :=
  if '0' ≤ c && c ≤ '9' then some (c.toNat - 48)
  else if 'a' ≤ c && c ≤ 'f' then some (c.toNat - 87)
  else if 'A' ≤ c && c ≤ 'F' then some (c.toNat - 55)
  else none

/-- The character denoted by the one-letter escape `c` after a backslash. -/
def unescape (c : Char) : Option Char :=
  if c = '"' then some '"'
  else if c = '\\' then some '\\'
  else if c = '/' then some '/'
  else if c = 'b' then some (Char.ofNat 8)
  else if c = 'f' then some (Char.ofNat 12)
  else if c = 'n' then some '\n'
  else if c = 'r' then some '\r'
  else if c = 't' then some '\t'
  else none

/-- The character denoted by the four hexadecimal digits of a `u` escape. -/
def unicodeEscape (a b c d : Char) : Option Char :=
  match hexDigitValue a, hexDigitValue b, hexDigitValue c, hexDigitValue d with
  | some x, some y, some z, some w => some (Char.ofNat (4096 * x + 256 * y + 16 * z + w))
  | _, _, _, _ => none

/-- Put `c` in front of the characters read so far. -/
def addChar (c : Char) (r : Option (List Char × List Char)) : Option (List Char × List Char) :=
  r.map (fun sr => (c :: sr.1, sr.2))

/-- Read a string literal after its opening quote: the characters it denotes and the text
after the closing quote. Control characters and unknown escapes are rejected. -/
def scanString : List Char → Option (List Char × List Char)
  | [] => none
  | c :: rest =>
    if c = '"' then some ([], rest)
    else if c = '\\' then
      match rest with
      | [] => none
      | e :: rest2 =>
        if e = 'u' then
          match rest2 with
          | a :: b :: c2 :: d :: rest3 =>
            match unicodeEscape a b c2 d with
            | some ch => addChar ch (scanString rest3)
            | none => none
          | _ => none
        else
          match unescape e with
          | some ch => addChar ch (scanString rest2)
          | none => none
    else if c.toNat < 32 then none
    else addChar c (scanString rest)

/-- The number written by a run of decimal digits. -/
def digitsValue (ds : List Char) : Nat :=
  ds.foldl (fun acc d => 10 * acc + (d.toNat - 48)) 0

/-- Split off the leading run of decimal digits. -/
def scanDigits (cs : List Char) : List Char × List Char :=
  cs.span Char.isDigit

/-- Read an optional fraction: a point followed by at least one digit. -/
def scanFraction (cs : List Char) : Option (List Char × List Char) :=
  match cs with
  | c :: rest =>
    if c = '.' then
      match scanDigits rest with
      | ([], _) => none
      | (ds, rest2) => some (c :: ds, rest2)
    else some ([], cs)
  | [] => some ([], cs)

/-- Read an optional exponent: `e` or `E`, an optional sign, at least one digit. -/
def scanExponent (cs : List Char) : Option (List Char × List Char) :=
  match cs with
  | c :: rest =>
    if c = 'e' || c = 'E' then
      match rest with
      | s :: rest2 =>
        if s = '+' || s = '-' then
          match scanDigits rest2 with
          | ([], _) => none
          | (ds, rest3) => some (c :: s :: ds, rest3)
        else
          match scanDigits rest with
          | ([], _) => none
          | (ds, rest3) => some (c :: ds, rest3)
      | [] => none
    else some ([], cs)
  | [] => some ([], cs)

/-- Read a number: optional minus, integer part without superfluous leading zero, optional
fraction and exponent. A number with neither fraction nor exponent is an integer. -/
def scanNumber (cs : List Char) : Option (JsonVariant × List Char) :=
  let negative := cs.head? = some '-'
  let cs1 := if negative then cs.drop 1 else cs
  match scanDigits cs1 with
  | ([], _) => none
  | (ds, cs2) =>
    if ds.length > 1 && ds.head? = some '0' then none
    else
      match scanFraction cs2 with
      | none => none
      | some (frac, cs3) =>
        match scanExponent cs3 with
        | none => none
        | some (ex, cs4) =>
          if frac.isEmpty && ex.isEmpty then
            some (.integer (if negative then - Int.ofNat (digitsValue ds) else Int.ofNat (digitsValue ds)),
              cs4)
          else
            some (.real (String.mk ((if negative then ['-'] else []) ++ ds ++ frac ++ ex)), cs4)

/-- Read the literal `word`, which denotes `value`. -/
def scanWord (word : List Char) (value : JsonVariant) (cs : List Char) :
    Option (JsonVariant × List Char) :=
  if cs.take word.length = word then some (value, cs.drop word.length) else none

mutual
/-- Read one JSON value, with leading white space; `fuel` bounds the number of nested and
chained calls. -/
def readValue : Nat → List Char → Option (JsonVariant × List Char)
  | 0, _ => none
  | fuel + 1, cs =>
    match skipSpace cs with
    | [] => none
    | c :: rest =>
      if c = '\x7b' then
        match skipSpace rest with
        | [] => none
        | d :: rest2 =>
          if d = '\x7d' then some (.object [], rest2)
          else (readMembers fuel (d :: rest2)).map (fun mr => (.object mr.1, mr.2))
      else if c = '[' then
        match skipSpace rest with
        | [] => none
        | d :: rest2 =>
          if d = ']' then some (.array [], rest2)
          else (readItems fuel (d :: rest2)).map (fun ir => (.array ir.1, ir.2))
      else if c = '"' then
        (scanString rest).map (fun sr => (.string (String.mk sr.1), sr.2))
      else if c = 't' then scanWord ['t', 'r', 'u', 'e'] (.boolean true) (c :: rest)
      else if c = 'f' then scanWord ['f', 'a', 'l', 's', 'e'] (.boolean false) (c :: rest)
      else if c = 'n' then scanWord ['n', 'u', 'l', 'l'] .null (c :: rest)
      else scanNumber (c :: rest)
/-- Read the members of an object up to and including the closing brace. -/
def readMembers : Nat → List Char → Option (List (String × JsonVariant) × List Char)
  | 0, _ => none
  | fuel + 1, cs =>
    match skipSpace cs with
    | [] => none
    | c :: rest =>
      if c = '"' then
        match scanString rest with
        | none => none
        | some (key, rest1) =>
          match skipSpace rest1 with
          | [] => none
          | colon :: rest2 =>
            if colon = ':' then
              match readValue fuel rest2 with
              | none => none
              | some (value, rest3) =>
                match skipSpace rest3 with
                | [] => none
                | sep :: rest4 =>
                  if sep = ',' then
                    (readMembers fuel rest4).map
                      (fun mr => ((String.mk key, value) :: mr.1, mr.2))
                  else if sep = '\x7d' then some ([(String.mk key, value)], rest4)
                  else none
            else none
      else none
/-- Read the items of an array up to and including the closing bracket. -/
def readItems : Nat → List Char → Option (List JsonVariant × List Char)
  | 0, _ => none
  | fuel + 1, cs =>
    match readValue fuel cs with
    | none => none
    | some (value, rest) =>
      match skipSpace rest with
      | [] => none
      | sep :: rest2 =>
        if sep = ',' then (readItems fuel rest2).map (fun ir => (value :: ir.1, ir.2))
        else if sep = ']' then some ([value], rest2)
        else none
end

/-- Read a whole text as one JSON value (RFC 8259): `none` when the text is not well formed or
something other than white space follows the value. The fuel given always suffices
(`parse_eq_some_iff`). -/
def parse (text : String) : Option JsonVariant :=
  match readValue (text.length + 1) text.data with
  | none => none
  | some (value, rest) => if (skipSpace rest).isEmpty then some value else none

/-- Modelled from the spec: the routine `deserializeJson` of ArduinoJson, which is not part of
the repository. The specification speaks of a JSON-RPC response that either has a
top-level `result` member or is of any other shape; accordingly a well-formed JSON text
leaves the value it denotes in the document, and any other text leaves the document
empty. The `DeserializationError` the routine returns is not modelled: the caller
discards it. -/
def deserializeJson (text : String) : JsonVariant :=
  (parse text).getD .null

end JsonText

/-! ## Libraries and environment -/

/-- The library routines the class calls: `SHA256::update` + `finalize` on a
fresh hasher (the 32 digest bytes, each a `uint8_t`), `serializeJson` and
`deserializeJson` (the document left behind by the call). -/
structure Platform where
  sha256 : String → Fin 32 → Fin 256
  serializeJson : JsonVariant → String
  deserializeJson : String → JsonVariant

/-- One POST as handed to `HTTPClient`: the URL of `begin`, the headers of
`addHeader` in call order, and the payload of `POST`. -/
structure HttpRequest where
  url : String
  headers : List (String × String)
  body : String
deriving DecidableEq

/-- The outcome of a POST: the `int` returned by `POST` and the text `getString()` yields. -/
structure HttpResponse where
  code : Int
  body : String
deriving DecidableEq

/-- The world around one `AgentHub` object. -/
structure Env where
  /-- The answer of the k-th call of `WiFi.status()`. -/
  wifi : Nat → Nat
  /-- How many times `WiFi.status()` has been called. -/
  wifiReads : Nat
  /-- The clock value at the k-th call of `millis()`. -/
  clock : Nat → Nat
  /-- How many times `millis()` has been called. -/
  clockReads : Nat
  /-- The HTTP peer: its answer to a request, given the requests made before. -/
  server : List HttpRequest → HttpRequest → HttpResponse
  /-- Every POST made so far, oldest first. -/
  requests : List HttpRequest
  /-- Every message handed to `signMessage` so far, oldest first. -/
  signLog : List String

namespace Env

/-- An environment in which nothing has happened yet. -/
def start (wifi : Nat → Nat) (clock : Nat → Nat)
    (server : List HttpRequest → HttpRequest → HttpResponse) : Env :=
  { wifi := wifi, wifiReads := 0, clock := clock, clockReads := 0,
    server := server, requests := [], signLog := [] }

/-- The call `WiFi.status()`. -/
def wifiStatus (env : Env) : Nat × Env :=
  (env.wifi env.wifiReads, { env with wifiReads := env.wifiReads + 1 })

/-- The call `millis()`: an `unsigned long` of 32 bits. -/
def millis (env : Env) : Nat × Env :=
  (env.clock env.clockReads % 2 ^ 32, { env with clockReads := env.clockReads + 1 })

/-- The sequence `http.begin; addHeader...; POST; getString; end` on a fresh `HTTPClient`. -/
def httpPOST (req : HttpRequest) (env : Env) : HttpResponse × Env :=
  (env.server env.requests req, { env with requests := env.requests ++ [req] })

end Env

/-! ## The class `AgentHub` -/

/-- The private member fields of the class. -/
structure AgentHub where
  agentId : String
  privateKey : String
  network : String
  rpcUrl : String
  registryAddress : String
  initialized : Bool
deriving DecidableEq

namespace AgentHub

/-- The constructor `AgentHub::AgentHub()`. The string members it does not
assign are default-constructed, that is empty. -/
def new : AgentHub :=
  { agentId := "", privateKey := "", network := "fuji", rpcUrl := AGENTHUB_FUJI_RPC,
    registryAddress := AGENTHUB_REGISTRY_ADDRESS, initialized := false }

/-- The member `begin(agentId, privateKey, network)`. -/
def begin (self : AgentHub) (agentId privateKey network : String) : AgentHub :=
  { self with
    agentId := agentId
    privateKey := privateKey
    network := network
    rpcUrl := if network = "mainnet" then AGENTHUB_MAINNET_RPC else AGENTHUB_FUJI_RPC
    initialized := true }

/-- The overload `begin(agentId, privateKey)`. -/
def begin2 (self : AgentHub) (agentId privateKey : String) : AgentHub :=
  self.begin agentId privateKey "fuji"

/-- The member `setRegistryAddress`. -/
def setRegistryAddress (self : AgentHub) (address : String) : AgentHub :=
  { self with registryAddress := address }

/-- The conversion `String(value, HEX)` of an unsigned value: lowercase digits, no padding. -/
def hexString (value : Nat) : String :=
  String.mk (Nat.toDigits 16 value)

/-- One pass of the loop body of `hashAgentId` for the byte `b`. -/
def appendHexByte (result : String) (b : Fin 256) : String :=
  let padded := if b.val < 16 then result ++ "0" else result
  padded ++ hexString b.val

/-- The member `hashAgentId`. -/
def hashAgentId (p : Platform) (_self : AgentHub) (id : String) : String :=
  let hash := p.sha256 id
  (List.finRange 32).foldl (fun result i => appendHexByte result (hash i)) "0x"

/-- The member `signMessage`; the message is recorded in the log of the environment. -/
def signMessage (_self : AgentHub) (message : String) (env : Env) : String × Env :=
  ("0x" ++ toString message.utf8ByteSize, { env with signLog := env.signLog ++ [message] })

/-- The text `{"error":"HTTP error: <code>"}` built when `POST` returns a code that is not positive. -/
def httpErrorBody (code : Int) : String :=
  "\x7b\"error\":\"HTTP error: " ++ toString code ++ "\"\x7d"

/-- The text `{"error":"WiFi not connected"}`. -/
def wifiErrorBody : String := "\x7b\"error\":\"WiFi not connected\"\x7d"

/-- The text `{"error":"AgentHub not initialized"}`. -/
def notInitializedBody : String := "\x7b\"error\":\"AgentHub not initialized\"\x7d"

/-- The response text kept after a POST: `getString()` for a positive code, the error text otherwise. -/
def responseText (r : HttpResponse) : String :=
  if r.code > 0 then r.body else httpErrorBody r.code

/-- The member `makeRPCRequest`. -/
def makeRPCRequest (self : AgentHub) (method params : String) (env : Env) : String × Env :=
  let (status, env1) := env.wifiStatus
  if status ≠ WL_CONNECTED then (wifiErrorBody, env1)
  else
    let payload := "\x7b\"jsonrpc\":\"2.0\",\"method\":\"" ++ method ++ "\",\"params\":" ++ params
      ++ ",\"id\":1\x7d"
    let (r, env2) := env1.httpPOST
      { url := self.rpcUrl, headers := [("Content-Type", "application/json")], body := payload }
    (responseText r, env2)

/-- The body of `generatePaymentData` up to the serialization: the document built and
the environment afterwards. -/
def generatePaymentDoc (self : AgentHub) (url amount : String) (env : Env) : JsonVariant × Env :=
  let doc := JsonVariant.null
  let doc := doc.set "resourceUrl" (.string url)
  let doc := doc.set "amount" (.string amount)
  let doc := doc.set "token" (.string "USDC")
  let doc := doc.set "tier" (.string "basic")
  let (stamp, env1) := env.millis
  let doc := doc.set "timestamp" (.integer stamp)
  let (now, env2) := env1.millis
  let message := url ++ amount ++ toString now
  let (signature, env3) := self.signMessage message env2
  let doc := doc.set "signature" (.string signature)
  (doc, env3)

/-- The member `generatePaymentData`. -/
def generatePaymentData (p : Platform) (self : AgentHub) (url amount : String) (env : Env) :
    String × Env :=
  let (doc, env1) := self.generatePaymentDoc url amount env
  (p.serializeJson doc, env1)

/-- The parameter string `registerAgent` passes to `makeRPCRequest`. -/
def registerParams (self : AgentHub) : String :=
  "[\x7b\"to\":\"" ++ self.registryAddress ++ "\",\"data\":\"0x...\"\x7d]"

/-- The member `registerAgent`. -/
def registerAgent (p : Platform) (self : AgentHub) (_metadataIPFS _stakeAmount : String)
    (env : Env) : Bool × Env :=
  if !self.initialized then (false, env)
  else
    let (status, env1) := env.wifiStatus
    if status ≠ WL_CONNECTED then (false, env1)
    else
      let _hashedAgentId := self.hashAgentId p self.agentId
      let params := self.registerParams
      let (response, env2) := self.makeRPCRequest "eth_sendTransaction" params env1
      let doc := p.deserializeJson response
      (doc.containsKey "result", env2)

/-- The member `x402Request(url, amount, String data)`. -/
def x402Request (p : Platform) (self : AgentHub) (url amount data : String) (env : Env) :
    String × Env :=
  if !self.initialized then (notInitializedBody, env)
  else
    let (status, env1) := env.wifiStatus
    if status ≠ WL_CONNECTED then (wifiErrorBody, env1)
    else
      let (paymentData, env2) := self.generatePaymentData p url amount env1
      let (r, env3) := env2.httpPOST
        { url := AGENTHUB_X402_API
          headers := [("Content-Type", "application/json"), ("x-payment", paymentData)]
          body := if data.utf8ByteSize > 0 then data else "\x7b\x7d" }
      (responseText r, env3)

/-- The overload `x402Request(url, amount, JsonObject data)`. -/
def x402RequestJson (p : Platform) (self : AgentHub) (url amount : String) (data : JsonVariant)
    (env : Env) : String × Env :=
  self.x402Request p url amount (p.serializeJson data) env

/-- The member `sendSensorData(endpoint, String data)`. -/
def sendSensorData (self : AgentHub) (endpoint data : String) (env : Env) : String × Env :=
  let (status, env1) := env.wifiStatus
  if status ≠ WL_CONNECTED then (wifiErrorBody, env1)
  else
    let (r, env2) := env1.httpPOST
      { url := endpoint
        headers := [("Content-Type", "application/json"), ("X-Agent-ID", self.agentId)]
        body := data }
    (responseText r, env2)

/-- The overload `sendSensorData(endpoint, JsonObject data)`. -/
def sendSensorDataJson (p : Platform) (self : AgentHub) (endpoint : String) (data : JsonVariant)
    (env : Env) : String × Env :=
  self.sendSensorData endpoint (p.serializeJson data) env

/-- The member `getAgentId`. -/
def getAgentId (self : AgentHub) : String := self.agentId

/-- The member `isInitialized`. -/
def isInitialized (self : AgentHub) : Bool := self.initialized

end AgentHub

/-! ## Notions of the specification -/

namespace Spec

/-- A lowercase hexadecimal digit. -/
def isLowerHexDigit (c : Char) : Bool :=
  ('0' ≤ c && c ≤ '9') || ('a' ≤ c && c ≤ 'f')

/-- The value of a lowercase hexadecimal digit. -/
def hexValue (c : Char) : Option Nat :=
  if '0' ≤ c && c ≤ '9' then some (c.toNat - 48)
  else if 'a' ≤ c && c ≤ 'f' then some (c.toNat - 87)
  else none

/-- Decode a run of hexadecimal digit pairs into bytes, high digit first. -/
def decodeHexBytes : List Char → Option (List Nat)
  | [] => some []
  | [_] => none
  | hi :: lo :: rest =>
    match hexValue hi, hexValue lo, decodeHexBytes rest with
    | some h, some l, some bytes => some ((16 * h + l) :: bytes)
    | _, _, _ => none

/-- A hexadecimal digit of either case. -/
def isHexDigit (c : Char) : Bool :=
  c.isDigit || ('a' ≤ c && c ≤ 'f') || ('A' ≤ c && c ≤ 'F')

/-- A well-formed hex-encoded 32-byte secret: 64 hexadecimal digits, optionally after `0x`. -/
def wellFormedKey (s : String) : Bool :=
  let digits := if s.data.take 2 = ['0', 'x'] then s.data.drop 2 else s.data
  digits.length = 64 && digits.all isHexDigit

/-- A numeric amount string: decimal digits, at least one, with at most one point. -/
def isNumericAmount (s : String) : Bool :=
  s.data.any Char.isDigit && s.data.all (fun c => c.isDigit || c = '.')
    && (s.data.filter (fun c => c = '.')).length ≤ 1

/-- The input check the specification asks of `compose`: a non-empty url and a numeric amount. -/
def validPaymentInput (url amount : String) : Bool :=
  url ≠ "" && isNumericAmount amount

/-- The canonical message of the specification:
`url | amount | tokenSymbol | tier | issuedAtMillis`, concatenated in that order. -/
def canonicalMessage (url amount tokenSymbol tier : String) (issuedAtMillis : Nat) : String :=
  url ++ amount ++ tokenSymbol ++ tier ++ toString issuedAtMillis

/-- Two agent states are indistinguishable from outside: in every environment and for all
arguments, every public operation returns the same result and leaves the same
environment (the same POST requests with their URL, headers and body, the same signing
log, the same number of status and clock reads). -/
def SameObservations (p : Platform) (a b : AgentHub) : Prop :=
  (∀ (metadataIPFS stakeAmount : String) (env : Env),
      a.registerAgent p metadataIPFS stakeAmount env
        = b.registerAgent p metadataIPFS stakeAmount env)
  ∧ (∀ (url amount data : String) (env : Env),
      a.x402Request p url amount data env = b.x402Request p url amount data env)
  ∧ (∀ (url amount : String) (data : JsonVariant) (env : Env),
      a.x402RequestJson p url amount data env = b.x402RequestJson p url amount data env)
  ∧ (∀ (endpoint data : String) (env : Env),
      a.sendSensorData endpoint data env = b.sendSensorData endpoint data env)
  ∧ (∀ (endpoint : String) (data : JsonVariant) (env : Env),
      a.sendSensorDataJson p endpoint data env = b.sendSensorDataJson p endpoint data env)
  ∧ a.getAgentId = b.getAgentId
  ∧ a.isInitialized = b.isInitialized

/-- The two digits that render the byte `b`: high nibble, then low nibble. -/
def hexPairOf (b : Fin 256) : List Char :=
  [Nat.digitChar (b.val / 16), Nat.digitChar (b.val % 16)]

end Spec

/-! ## Sample platform, for running the model on concrete inputs -/

/-- A test double of the libraries, used only to evaluate the model on sample inputs:
the digest is all zero, documents are written as minified JSON and read by the JSON reader
`JsonText.deserializeJson`. -/
def Platform.sample : Platform where
  sha256 := fun _ _ => 0
  serializeJson := JsonVariant.minified
  deserializeJson := JsonText.deserializeJson

/-- A sample agent: constructed, then `begin("sensor-42", key, "fuji")`. -/
def AgentHub.sample : AgentHub :=
  AgentHub.new.begin "sensor-42"
    "0101010101010101010101010101010101010101010101010101010101010101" "fuji"

/-- A sample environment: WiFi connected, the clock reading `clock k` at the k-th call of
`millis()`, and a peer that answers every POST with `response`. -/
def Env.sample (clock : Nat → Nat) (response : HttpResponse) : Env :=
  Env.start (fun _ => WL_CONNECTED) clock (fun _ _ => response)

/-! ## Identity hashing -/

section HashAgentId

open AgentHub Spec

set_option maxRecDepth 100000 in
theorem paddedHex_eq_hexPairOf :
    ∀ b : Fin 256, (if b.val < 16 then "0" else "") ++ hexString b.val = String.mk (hexPairOf b) := by
  decide

set_option maxRecDepth 100000 in
theorem hexPairOf_lowerHex : ∀ b : Fin 256, ∀ c ∈ hexPairOf b, isLowerHexDigit c = true := by
  decide

set_option maxRecDepth 100000 in
theorem hexValue_hexPairOf :
    ∀ b : Fin 256, hexValue (Nat.digitChar (b.val / 16)) = some (b.val / 16) ∧
      hexValue (Nat.digitChar (b.val % 16)) = some (b.val % 16) := by
  decide

set_option maxRecDepth 100000 in
theorem hexPairOf_utf8Size : ∀ b : Fin 256, ∀ c ∈ hexPairOf b, c.utf8Size = 1 := by
  decide

theorem utf8ByteSize_go_of_ascii (l : List Char) (h : ∀ c ∈ l, c.utf8Size = 1) :
    String.utf8ByteSize.go l = l.length := by
  induction l with
  | nil => rfl
  | cons c rest ih =>
    have hc := h c (List.mem_cons_self c rest)
    have hr := ih (fun d hd => h d (List.mem_cons_of_mem c hd))
    show String.utf8ByteSize.go rest + c.utf8Size = rest.length + 1
    rw [hc, hr]

theorem appendHexByte_data (result : String) (b : Fin 256) :
    (appendHexByte result b).data = result.data ++ hexPairOf b := by
  have h := paddedHex_eq_hexPairOf b
  unfold appendHexByte
  by_cases hb : b.val < 16
  · simp only [hb, if_true] at h ⊢
    rw [String.append_assoc, h]
    simp
  · simp only [hb, if_false] at h ⊢
    have h2 : hexString b.val = String.mk (hexPairOf b) := by
      rw [← h]; simp
    rw [h2]; simp

theorem foldl_appendHexByte_data (hash : Fin 32 → Fin 256) (l : List (Fin 32)) (acc : String) :
    (l.foldl (fun result i => appendHexByte result (hash i)) acc).data
      = acc.data ++ (l.map (fun i => hexPairOf (hash i))).flatten := by
  induction l generalizing acc with
  | nil => simp
  | cons i rest ih => simp [ih, appendHexByte_data, List.append_assoc]

theorem hashAgentId_data (p : Platform) (self : AgentHub) (id : String) :
    (hashAgentId p self id).data
      = ['0', 'x'] ++ ((List.ofFn (p.sha256 id)).map hexPairOf).flatten := by
  unfold hashAgentId
  simp only [foldl_appendHexByte_data, List.ofFn_eq_map, List.map_map]
  rfl

theorem length_join_hexPairOf (bytes : List (Fin 256)) :
    (bytes.map hexPairOf).flatten.length = 2 * bytes.length := by
  induction bytes with
  | nil => rfl
  | cons b rest ih => simp [hexPairOf, ih]; omega

theorem decodeHexBytes_join_hexPairOf (bytes : List (Fin 256)) :
    decodeHexBytes (bytes.map hexPairOf).flatten = some (bytes.map Fin.val) := by
  induction bytes with
  | nil => rfl
  | cons b rest ih =>
    have hv := hexValue_hexPairOf b
    simp only [List.map_cons, List.flatten_cons, hexPairOf, List.cons_append, List.nil_append]
    simp only [hexPairOf] at ih
    simp only [decodeHexBytes, hv.1, hv.2, ih]
    congr 2
    exact Nat.div_add_mod b.val 16

theorem digest_eq_of_hashAgentId_eq (p : Platform) (a b : AgentHub) (name other : String)
    (h : hashAgentId p a name = hashAgentId p b other) : p.sha256 name = p.sha256 other := by
  have hd := congrArg (fun s => decodeHexBytes (s.data.drop 2)) h
  simp only [hashAgentId_data, List.cons_append, List.nil_append, List.drop_succ_cons, List.drop_zero,
    decodeHexBytes_join_hexPairOf, Option.some.injEq] at hd
  exact List.ofFn_injective (List.map_injective_iff.mpr Fin.val_injective hd)

/-- C9: `hashAgentId` depends on the name only (not on the object it is called on);
its result is `0x` followed by exactly 64 lowercase hexadecimal digits (66 characters),
namely the 32 digest bytes in order, each rendered as its high and its low nibble (so a
byte below 16 gets a leading zero); decoding the digits gives back the digest bytes; and
two names get the same identity string exactly when their digests are equal. -/
theorem hashAgentId_hex_of_digest (p : Platform) (a b : AgentHub) (name other : String) :
    hashAgentId p a name = hashAgentId p b name
    ∧ (hashAgentId p a name).length = 66
    ∧ (hashAgentId p a name).utf8ByteSize = 66
    ∧ (hashAgentId p a name).data.take 2 = ['0', 'x']
    ∧ ((hashAgentId p a name).data.drop 2).length = 64
    ∧ (∀ c ∈ (hashAgentId p a name).data.drop 2, isLowerHexDigit c = true)
    ∧ (hashAgentId p a name).data.drop 2 = ((List.ofFn (p.sha256 name)).map hexPairOf).flatten
    ∧ decodeHexBytes ((hashAgentId p a name).data.drop 2)
        = some ((List.ofFn (p.sha256 name)).map Fin.val)
    ∧ (hashAgentId p a name = hashAgentId p a other ↔ p.sha256 name = p.sha256 other) := by
  have hdata := hashAgentId_data p a name
  have hdrop : (hashAgentId p a name).data.drop 2
      = ((List.ofFn (p.sha256 name)).map hexPairOf).flatten := by
    rw [hdata]; rfl
  have hlen : ((hashAgentId p a name).data.drop 2).length = 64 := by
    rw [hdrop, length_join_hexPairOf]; simp
  have hhex : ∀ c ∈ (hashAgentId p a name).data.drop 2, isLowerHexDigit c = true := by
    intro c hc
    rw [hdrop] at hc
    obtain ⟨l, hl, hcl⟩ := List.mem_flatten.mp hc
    obtain ⟨byte, _, rfl⟩ := List.mem_map.mp hl
    exact hexPairOf_lowerHex byte c hcl
  refine ⟨rfl, ?_, ?_, ?_, hlen, hhex, hdrop, ?_, ?_⟩
  · show (hashAgentId p a name).data.length = 66
    rw [hdata, List.length_append, length_join_hexPairOf]; simp
  · show String.utf8ByteSize.go (hashAgentId p a name).data = 66
    rw [utf8ByteSize_go_of_ascii, hdata, List.length_append, length_join_hexPairOf]
    · simp
    · intro c hc
      rw [hdata] at hc
      rcases List.mem_append.mp hc with h0 | h1
      · have h2 : c = '0' ∨ c = 'x' := by simpa using h0
        rcases h2 with rfl | rfl <;> decide
      · obtain ⟨l, hl, hcl⟩ := List.mem_flatten.mp h1
        obtain ⟨byte, _, rfl⟩ := List.mem_map.mp hl
        exact hexPairOf_utf8Size byte c hcl
  · rw [hdata]; rfl
  · rw [hdrop, decodeHexBytes_join_hexPairOf]
  · constructor
    · exact digest_eq_of_hashAgentId_eq p a a name other
    · intro h
      apply String.ext
      rw [hashAgentId_data, hashAgentId_data, h]

end HashAgentId

/-! ## Initialization -/

section Initialization

open AgentHub Spec

/-- C4 (as stated, refuted): the empty string and `not-a-key` are not well-formed
hex-encoded 32-byte secrets, yet `begin` with either of them leaves the agent initialized. -/
theorem begin_accepts_malformed_key :
    wellFormedKey "" = false ∧ wellFormedKey "not-a-key" = false
    ∧ (AgentHub.new.begin "sensor-42" "" "fuji").isInitialized = true
    ∧ (AgentHub.new.begin "sensor-42" "not-a-key" "fuji").isInitialized = true := by
  decide

/-- C4 (amended): `begin` performs no check of the key material. For every private-key
string it stores the string as given and leaves the agent initialized, for both overloads. -/
theorem begin_always_initializes (self : AgentHub) (agentId privateKey network : String) :
    (self.begin agentId privateKey network).isInitialized = true
    ∧ (self.begin agentId privateKey network).privateKey = privateKey
    ∧ (self.begin agentId privateKey network).getAgentId = agentId
    ∧ (self.begin2 agentId privateKey).isInitialized = true
    ∧ (self.begin2 agentId privateKey).privateKey = privateKey :=
  ⟨rfl, rfl, rfl, rfl, rfl⟩

/-- C5: on an agent that is not initialized, whatever the WiFi status and the arguments,
`registerAgent` returns false and `x402Request` (both overloads) returns exactly
`{"error":"AgentHub not initialized"}`; the environment is left as it was, so the WiFi
status is not even read, nothing is signed and no HTTP request is issued. -/
theorem uninitialized_is_rejected (p : Platform) (self : AgentHub)
    (h : self.initialized = false) (metadataIPFS stakeAmount url amount data : String)
    (json : JsonVariant) (env : Env) :
    self.registerAgent p metadataIPFS stakeAmount env = (false, env)
    ∧ self.x402Request p url amount data env
        = ("\x7b\"error\":\"AgentHub not initialized\"\x7d", env)
    ∧ self.x402RequestJson p url amount json env
        = ("\x7b\"error\":\"AgentHub not initialized\"\x7d", env)
    ∧ (self.registerAgent p metadataIPFS stakeAmount env).2.requests = env.requests
    ∧ (self.registerAgent p metadataIPFS stakeAmount env).2.signLog = env.signLog
    ∧ (self.x402Request p url amount data env).2.requests = env.requests
    ∧ (self.x402Request p url amount data env).2.signLog = env.signLog := by
  simp [registerAgent, x402Request, x402RequestJson, h, notInitializedBody]

/-- C5, at the freshly constructed agent with WiFi reported as disconnected (status 6). -/
theorem uninitialized_is_rejected_witness :
    AgentHub.new.initialized = false
    ∧ AgentHub.new.registerAgent Platform.sample "ipfs://meta" "100"
        (Env.start (fun _ => 6) (fun k => k) (fun _ _ => ⟨200, "ok"⟩))
        = (false, Env.start (fun _ => 6) (fun k => k) (fun _ _ => ⟨200, "ok"⟩))
    ∧ AgentHub.new.x402Request Platform.sample "https://svc/x" "0.01" ""
        (Env.start (fun _ => 6) (fun k => k) (fun _ _ => ⟨200, "ok"⟩))
        = ("\x7b\"error\":\"AgentHub not initialized\"\x7d",
            Env.start (fun _ => 6) (fun k => k) (fun _ _ => ⟨200, "ok"⟩)) :=
  have h := uninitialized_is_rejected Platform.sample AgentHub.new rfl "ipfs://meta" "100"
    "https://svc/x" "0.01" "" JsonVariant.null
    (Env.start (fun _ => 6) (fun k => k) (fun _ _ => ⟨200, "ok"⟩))
  ⟨rfl, h.1, h.2.1⟩

end Initialization

/-! ## Payment data -/

section PaymentData

open AgentHub Spec

/-- What `generatePaymentDoc` does, field by field. -/
theorem generatePaymentDoc_eq (self : AgentHub) (url amount : String) (env : Env) :
    self.generatePaymentDoc url amount env
      = (.object [("resourceUrl", .string url), ("amount", .string amount),
            ("token", .string "USDC"), ("tier", .string "basic"),
            ("timestamp", .integer (Int.ofNat (env.clock env.clockReads % 2 ^ 32))),
            ("signature", .string ("0x" ++ toString
              (url ++ amount ++ toString (env.clock (env.clockReads + 1) % 2 ^ 32)).utf8ByteSize))],
          { env with
            clockReads := env.clockReads + 2
            signLog := env.signLog
              ++ [url ++ amount ++ toString (env.clock (env.clockReads + 1) % 2 ^ 32)] }) := by
  simp [generatePaymentDoc, signMessage, Env.millis, JsonVariant.set, JsonVariant.setMember]

/-- C1 (failing input): two authorizations for the same url and amount, the first made at
clock reading 1000 and the second at 1001, carry the timestamps 1000 and 1001 and the
same signature `0x21`. -/
theorem replay_same_signature :
    (AgentHub.sample.generatePaymentDoc "https://svc/x" "0.01"
        (Env.sample (fun _ => 1000) ⟨200, "ok"⟩)).1.getInteger? "timestamp" = some 1000
    ∧ (AgentHub.sample.generatePaymentDoc "https://svc/x" "0.01"
        (Env.sample (fun _ => 1001) ⟨200, "ok"⟩)).1.getInteger? "timestamp" = some 1001
    ∧ (AgentHub.sample.generatePaymentDoc "https://svc/x" "0.01"
        (Env.sample (fun _ => 1000) ⟨200, "ok"⟩)).1.getString? "signature" = some "0x21"
    ∧ (AgentHub.sample.generatePaymentDoc "https://svc/x" "0.01"
        (Env.sample (fun _ => 1001) ⟨200, "ok"⟩)).1.getString? "signature" = some "0x21" := by
  decide

/-- C2 (as stated, refuted): for url `https://svc/x`, amount `0.01` and the clock at 1000,
the one message handed to `signMessage` is `https://svc/x0.011000`, which is not the
canonical message `https://svc/x0.01USDCbasic1000`. -/
theorem signed_message_not_canonical :
    (AgentHub.sample.generatePaymentData Platform.sample "https://svc/x" "0.01"
        (Env.sample (fun _ => 1000) ⟨200, "ok"⟩)).2.signLog = ["https://svc/x0.011000"]
    ∧ canonicalMessage "https://svc/x" "0.01" "USDC" "basic" 1000
        = "https://svc/x0.01USDCbasic1000"
    ∧ (AgentHub.sample.generatePaymentData Platform.sample "https://svc/x" "0.01"
        (Env.sample (fun _ => 1000) ⟨200, "ok"⟩)).2.signLog
      ≠ [canonicalMessage "https://svc/x" "0.01" "USDC" "basic" 1000] := by
  decide

/-- C2 (amended): `generatePaymentData` hands exactly one message to `signMessage`, the
concatenation of url, amount and the decimal rendering of the clock reading taken when
the message is built; the token `USDC` and the tier `basic` are members of the payload
and are not part of the signed message. -/
theorem signed_message_is_url_amount_millis (p : Platform) (self : AgentHub)
    (url amount : String) (env : Env) :
    (self.generatePaymentData p url amount env).2.signLog
      = env.signLog ++ [url ++ amount ++ toString (env.clock (env.clockReads + 1) % 2 ^ 32)]
    ∧ (self.generatePaymentDoc url amount env).1.getString? "resourceUrl" = some url
    ∧ (self.generatePaymentDoc url amount env).1.getString? "amount" = some amount
    ∧ (self.generatePaymentDoc url amount env).1.getString? "token" = some "USDC"
    ∧ (self.generatePaymentDoc url amount env).1.getString? "tier" = some "basic"
    ∧ (self.generatePaymentData p url amount env).1
        = p.serializeJson (self.generatePaymentDoc url amount env).1 := by
  simp [generatePaymentData, generatePaymentDoc_eq, JsonVariant.getString?, JsonVariant.get?]

/-- C10 (failing input): with the clock at 999 on the first call of `millis()` and at 1000
on the second, the payload is stamped 999 while the signed message ends in 1000. -/
theorem stamped_differs_from_signed :
    (AgentHub.sample.generatePaymentDoc "https://svc/x" "0.01"
        (Env.sample (fun k => 999 + k) ⟨200, "ok"⟩)).1.getInteger? "timestamp" = some 999
    ∧ (AgentHub.sample.generatePaymentDoc "https://svc/x" "0.01"
        (Env.sample (fun k => 999 + k) ⟨200, "ok"⟩)).2.signLog = ["https://svc/x0.011000"]
    ∧ (AgentHub.sample.generatePaymentData Platform.sample "https://svc/x" "0.01"
        (Env.sample (fun k => 999 + k) ⟨200, "ok"⟩)).1
      = "\x7b\"resourceUrl\":\"https://svc/x\",\"amount\":\"0.01\",\"token\":\"USDC\",\"tier\":\"basic\",\"timestamp\":999,\"signature\":\"0x21\"\x7d" := by
  decide

/-- C3 (as stated, refuted): with an empty url and the amount `abc`, which is not a valid
payment input, an initialized agent with WiFi connected signs the message `abc1000` and
sends one POST carrying a payment payload in the `x-payment` header. -/
theorem x402Request_sends_unvalidated_payment :
    validPaymentInput "" "abc" = false
    ∧ (AgentHub.sample.x402Request Platform.sample "" "abc" ""
        (Env.sample (fun _ => 1000) ⟨200, "ok"⟩)).1 = "ok"
    ∧ (AgentHub.sample.x402Request Platform.sample "" "abc" ""
        (Env.sample (fun _ => 1000) ⟨200, "ok"⟩)).2.signLog = ["abc1000"]
    ∧ (AgentHub.sample.x402Request Platform.sample "" "abc" ""
        (Env.sample (fun _ => 1000) ⟨200, "ok"⟩)).2.requests
      = [{ url := "http://localhost:3000/api/x402/pay"
           headers := [("Content-Type", "application/json"),
             ("x-payment", "\x7b\"resourceUrl\":\"\",\"amount\":\"abc\",\"token\":\"USDC\",\"tier\":\"basic\",\"timestamp\":1000,\"signature\":\"0x7\"\x7d")]
           body := "\x7b\x7d" }] := by
  decide

/-- C3 (amended): `x402Request` checks neither the url nor the amount. For every
initialized agent with WiFi connected and every url, amount and data, it signs one
message and sends exactly one POST to the x402 endpoint. The `x-payment` header of that
POST is the serialization of the payment payload: an object whose members are, in order,
`resourceUrl` (the url), `amount` (the amount), `token` (`USDC`), `tier` (`basic`),
`timestamp` (a clock reading) and `signature` (what `signMessage` returned for the message).
The body is the data, or `{}` when the data is empty, and the call returns the response
text of the POST. -/
theorem x402Request_always_sends_payment (p : Platform) (self : AgentHub)
    (url amount data : String) (env : Env)
    (hinit : self.initialized = true) (hwifi : env.wifi env.wifiReads = WL_CONNECTED) :
    (self.x402Request p url amount data env).2.requests
      = env.requests ++
        [{ url := "http://localhost:3000/api/x402/pay"
           headers := [("Content-Type", "application/json"),
             ("x-payment", p.serializeJson
               (.object [("resourceUrl", .string url), ("amount", .string amount),
                 ("token", .string "USDC"), ("tier", .string "basic"),
                 ("timestamp", .integer (Int.ofNat (env.clock env.clockReads % 2 ^ 32))),
                 ("signature", .string
                   (self.signMessage
                     (url ++ amount ++ toString (env.clock (env.clockReads + 1) % 2 ^ 32))
                     env).1)]))]
           body := if data.utf8ByteSize > 0 then data else "\x7b\x7d" }]
    ∧ (self.x402Request p url amount data env).2.signLog
      = env.signLog ++ [url ++ amount ++ toString (env.clock (env.clockReads + 1) % 2 ^ 32)]
    ∧ (self.x402Request p url amount data env).2.clockReads = env.clockReads + 2
    ∧ (self.x402Request p url amount data env).2.wifiReads = env.wifiReads + 1
    ∧ (self.x402Request p url amount data env).1
      = responseText (env.server env.requests
          { url := "http://localhost:3000/api/x402/pay"
            headers := [("Content-Type", "application/json"),
              ("x-payment", p.serializeJson
                (.object [("resourceUrl", .string url), ("amount", .string amount),
                  ("token", .string "USDC"), ("tier", .string "basic"),
                  ("timestamp", .integer (Int.ofNat (env.clock env.clockReads % 2 ^ 32))),
                  ("signature", .string
                    (self.signMessage
                      (url ++ amount ++ toString (env.clock (env.clockReads + 1) % 2 ^ 32))
                      env).1)]))]
            body := if data.utf8ByteSize > 0 then data else "\x7b\x7d" }) := by
  simp [x402Request, generatePaymentData, generatePaymentDoc, JsonVariant.set,
    JsonVariant.setMember, Env.millis, Env.wifiStatus, Env.httpPOST, signMessage,
    AGENTHUB_X402_API, hinit, hwifi]

/-- C3 (amended), at the sample agent with an empty url, the amount `abc` and the clock at
1000: the message `abc1000` is signed, one POST goes out whose `x-payment` header carries
the payload with the empty `resourceUrl` and the amount `abc`, and the response text `ok`
is returned. -/
theorem x402Request_always_sends_payment_witness :
    AgentHub.sample.initialized = true
    ∧ (Env.sample (fun _ => 1000) ⟨200, "ok"⟩).wifi
        (Env.sample (fun _ => 1000) ⟨200, "ok"⟩).wifiReads = WL_CONNECTED
    ∧ (AgentHub.sample.x402Request Platform.sample "" "abc" ""
        (Env.sample (fun _ => 1000) ⟨200, "ok"⟩)).2.requests
      = [{ url := "http://localhost:3000/api/x402/pay"
           headers := [("Content-Type", "application/json"),
             ("x-payment", "\x7b\"resourceUrl\":\"\",\"amount\":\"abc\",\"token\":\"USDC\",\"tier\":\"basic\",\"timestamp\":1000,\"signature\":\"0x7\"\x7d")]
           body := "\x7b\x7d" }]
    ∧ (AgentHub.sample.x402Request Platform.sample "" "abc" ""
        (Env.sample (fun _ => 1000) ⟨200, "ok"⟩)).2.signLog = ["abc1000"]
    ∧ (AgentHub.sample.x402Request Platform.sample "" "abc" ""
        (Env.sample (fun _ => 1000) ⟨200, "ok"⟩)).1 = "ok" :=
  have h := x402Request_always_sends_payment Platform.sample AgentHub.sample "" "abc" ""
    (Env.sample (fun _ => 1000) ⟨200, "ok"⟩) rfl rfl
  ⟨rfl, rfl, h.1.trans (by decide), h.2.1.trans (by decide), h.2.2.2.2.trans (by decide)⟩

end PaymentData

/-! ## The JSON reader -/

section JsonReader

open JsonText

theorem skipSpace_length (cs : List Char) : (skipSpace cs).length ≤ cs.length :=
  (List.dropWhile_suffix _).length_le

theorem skipSpace_cons_length {cs rest : List Char} {c : Char} (h : skipSpace cs = c :: rest) :
    rest.length < cs.length := by
  have := skipSpace_length cs
  rw [h] at this
  simpa using this

theorem addChar_eq_some {c : Char} {o : Option (List Char × List Char)} {s rest : List Char}
    (h : addChar c o = some (s, rest)) : ∃ t, o = some (t, rest) := by
  cases o with
  | none => simp [addChar] at h
  | some sr =>
    obtain ⟨t, r⟩ := sr
    simp only [addChar, Option.map_some', Option.some.injEq, Prod.mk.injEq] at h
    exact ⟨t, by rw [h.2]⟩

theorem scanString_length_aux (n : Nat) :
    ∀ cs : List Char, cs.length ≤ n → ∀ s rest, scanString cs = some (s, rest) →
      rest.length < cs.length := by
  induction n with
  | zero =>
    intro cs hlen s rest h
    cases cs with
    | nil => rw [scanString.eq_def] at h; simp at h
    | cons c tail => simp at hlen
  | succ n ih =>
    intro cs hlen s rest h
    cases cs with
    | nil => rw [scanString.eq_def] at h; simp at h
    | cons c tail =>
      rw [scanString.eq_def] at h
      simp only at h
      simp only [List.length_cons] at hlen ⊢
      by_cases h1 : c = '"'
      · simp only [h1, if_true, Option.some.injEq, Prod.mk.injEq] at h
        rw [← h.2]; omega
      · simp only [h1, if_false] at h
        by_cases h2 : c = '\\'
        · simp only [h2, if_true] at h
          cases tail with
          | nil => simp at h
          | cons e rest2 =>
            simp only at h
            simp only [List.length_cons] at hlen ⊢
            by_cases h3 : e = 'u'
            · simp only [h3, if_true] at h
              match rest2, h, hlen with
              | a :: b :: c2 :: d :: rest3, h, hlen =>
                simp only at h
                simp only [List.length_cons] at hlen ⊢
                cases hu : unicodeEscape a b c2 d with
                | none => simp [hu] at h
                | some ch =>
                  simp only [hu] at h
                  obtain ⟨t, ht⟩ := addChar_eq_some h
                  have := ih rest3 (by omega) t rest ht
                  omega
              | [], h, _ => simp at h
              | [_], h, _ => simp at h
              | [_, _], h, _ => simp at h
              | [_, _, _], h, _ => simp at h
            · simp only [h3, if_false] at h
              cases hu : unescape e with
              | none => simp [hu] at h
              | some ch =>
                simp only [hu] at h
                obtain ⟨t, ht⟩ := addChar_eq_some h
                have := ih rest2 (by omega) t rest ht
                omega
        · simp only [h2, if_false] at h
          by_cases h4 : c.toNat < 32
          · simp [h4] at h
          · simp only [h4, if_false] at h
            obtain ⟨t, ht⟩ := addChar_eq_some h
            have := ih tail (by omega) t rest ht
            omega

theorem scanString_length {cs s rest : List Char} (h : scanString cs = some (s, rest)) :
    rest.length < cs.length :=
  scanString_length_aux cs.length cs (Nat.le_refl _) s rest h

theorem scanDigits_length (cs : List Char) :
    (scanDigits cs).1.length + (scanDigits cs).2.length = cs.length := by
  unfold scanDigits
  rw [List.span_eq_take_drop]
  have := congrArg List.length (List.takeWhile_append_dropWhile Char.isDigit cs)
  rw [List.length_append] at this
  exact this

theorem scanFraction_length {cs f rest : List Char} (h : scanFraction cs = some (f, rest)) :
    rest.length ≤ cs.length := by
  unfold scanFraction at h
  cases cs with
  | nil => simp at h; rw [← h.2]
  | cons c tail =>
    simp only at h
    by_cases hc : c = '.'
    · simp only [hc, if_true] at h
      have hl := scanDigits_length tail
      generalize scanDigits tail = p at h hl
      obtain ⟨ds, rest2⟩ := p
      cases ds with
      | nil => simp at h
      | cons d ds =>
        simp only [Option.some.injEq, Prod.mk.injEq] at h
        rw [← h.2]
        simp only [List.length_cons] at hl ⊢
        omega
    · simp only [hc, if_false, Option.some.injEq, Prod.mk.injEq] at h
      rw [← h.2]

theorem scanExponent_length {cs e rest : List Char} (h : scanExponent cs = some (e, rest)) :
    rest.length ≤ cs.length := by
  unfold scanExponent at h
  cases cs with
  | nil => simp at h; rw [← h.2]
  | cons c tail =>
    simp only at h
    by_cases hc : (c = 'e' || c = 'E') = true
    · simp only [hc, if_true] at h
      cases tail with
      | nil => simp at h
      | cons s rest2 =>
        simp only at h
        by_cases hs : (s = '+' || s = '-') = true
        · simp only [hs, if_true] at h
          have hl := scanDigits_length rest2
          generalize scanDigits rest2 = p at h hl
          obtain ⟨ds, rest3⟩ := p
          cases ds with
          | nil => simp at h
          | cons d ds =>
            simp only [Option.some.injEq, Prod.mk.injEq] at h
            rw [← h.2]
            simp only [List.length_cons] at hl ⊢
            omega
        · simp only [hs] at h
          have hl := scanDigits_length (s :: rest2)
          generalize scanDigits (s :: rest2) = p at h hl
          obtain ⟨ds, rest3⟩ := p
          cases ds with
          | nil => simp at h
          | cons d ds =>
            simp only [Bool.false_eq_true, if_false, Option.some.injEq, Prod.mk.injEq] at h
            rw [← h.2]
            simp only [List.length_cons] at hl ⊢
            omega
    · simp only [hc] at h
      simp only [Bool.false_eq_true, if_false, Option.some.injEq, Prod.mk.injEq] at h
      rw [← h.2]

theorem scanNumber_length {cs rest : List Char} {v : JsonVariant}
    (h : scanNumber cs = some (v, rest)) : rest.length < cs.length := by
  unfold scanNumber at h
  simp only at h
  have hdrop : (if (cs.head? = some '-') then cs.drop 1 else cs).length ≤ cs.length := by
    split
    · simp
    · exact Nat.le_refl _
  generalize (if (cs.head? = some '-') then cs.drop 1 else cs) = cs1 at h hdrop
  have hl := scanDigits_length cs1
  generalize scanDigits cs1 = p at h hl
  obtain ⟨ds, cs2⟩ := p
  cases ds with
  | nil => simp at h
  | cons d ds =>
    simp only at h
    split at h
    · simp at h
    · cases hf : scanFraction cs2 with
      | none => simp [hf] at h
      | some fr =>
        obtain ⟨frac, cs3⟩ := fr
        have hfl := scanFraction_length hf
        simp only [hf] at h
        cases he : scanExponent cs3 with
        | none => simp [he] at h
        | some er =>
          obtain ⟨ex, cs4⟩ := er
          have hel := scanExponent_length he
          simp only [he] at h
          have hrest : rest = cs4 := by
            split at h <;> simp only [Option.some.injEq, Prod.mk.injEq] at h <;> exact h.2.symm
          rw [hrest]
          simp only [List.length_cons] at hl
          omega

theorem scanWord_length {word cs rest : List Char} {value v : JsonVariant}
    (hw : 0 < word.length) (h : scanWord word value cs = some (v, rest)) :
    rest.length < cs.length := by
  unfold scanWord at h
  split at h
  · rename_i htake
    simp only [Option.some.injEq, Prod.mk.injEq] at h
    rw [← h.2, List.length_drop]
    have : (cs.take word.length).length = word.length := by rw [htake]
    rw [List.length_take] at this
    omega
  · simp at h

theorem map_eq_some_pair {α β : Type} {o : Option (α × List Char)} {f : α → β}
    {r : β × List Char} (h : o.map (fun x => (f x.1, x.2)) = some r) :
    ∃ x, o = some x ∧ r = (f x.1, x.2) := by
  cases o with
  | none => simp at h
  | some x => exact ⟨x, rfl, by simpa using h.symm⟩

theorem readValue_fuel_step (n : Nat)
    (ihm : ∀ cs r, readMembers n cs = some r →
      r.2.length < cs.length ∧ ∀ m, cs.length - r.2.length ≤ m → readMembers m cs = some r)
    (ihi : ∀ cs r, readItems n cs = some r →
      r.2.length < cs.length ∧ ∀ m, cs.length - r.2.length ≤ m → readItems m cs = some r)
    (cs : List Char) (r : JsonVariant × List Char) (h : readValue (n + 1) cs = some r) :
    r.2.length < cs.length ∧ ∀ m, cs.length - r.2.length ≤ m → readValue m cs = some r := by
  rw [readValue.eq_def] at h
  simp only at h
  suffices hkey : r.2.length < cs.length ∧
      ∀ m, cs.length - r.2.length ≤ m + 1 → readValue (m + 1) cs = some r by
    refine ⟨hkey.1, fun m hm => ?_⟩
    cases m with
    | zero => have := hkey.1; omega
    | succ m => exact hkey.2 m hm
  cases hs : skipSpace cs with
  | nil => simp [hs] at h
  | cons c rest =>
    have hlt := skipSpace_cons_length hs
    simp only [hs] at h
    by_cases hc1 : c = '\x7b'
    · subst hc1
      simp only [if_true] at h
      cases hs2 : skipSpace rest with
      | nil => simp [hs2] at h
      | cons d rest2 =>
        have hlt2 := skipSpace_cons_length hs2
        simp only [hs2] at h
        by_cases hd : d = '\x7d'
        · subst hd
          simp only [if_true, Option.some.injEq] at h
          subst h
          refine ⟨by simp only; omega, fun m _ => ?_⟩
          rw [readValue.eq_def]
          simp only [hs, if_true, hs2]
        · simp only [hd, if_false] at h
          obtain ⟨mr, hmr, rfl⟩ := map_eq_some_pair (f := JsonVariant.object) h
          obtain ⟨hl, hm⟩ := ihm _ _ hmr
          simp only [List.length_cons] at hl hm
          refine ⟨by simp only; omega, fun m hfuel => ?_⟩
          rw [readValue.eq_def]
          simp only [hs, if_true, hs2, hd, if_false]
          rw [hm m (by simp only at hfuel; omega)]
          rfl
    · simp only [hc1, if_false] at h
      by_cases hc2 : c = '['
      · subst hc2
        simp only [if_true] at h
        cases hs2 : skipSpace rest with
        | nil => simp [hs2] at h
        | cons d rest2 =>
          have hlt2 := skipSpace_cons_length hs2
          simp only [hs2] at h
          by_cases hd : d = ']'
          · subst hd
            simp only [if_true, Option.some.injEq] at h
            subst h
            refine ⟨by simp only; omega, fun m _ => ?_⟩
            rw [readValue.eq_def]
            simp only [hs, hc1, if_true, if_false, hs2]
          · simp only [hd, if_false] at h
            obtain ⟨ir, hir, rfl⟩ := map_eq_some_pair (f := JsonVariant.array) h
            obtain ⟨hl, hm⟩ := ihi _ _ hir
            simp only [List.length_cons] at hl hm
            refine ⟨by simp only; omega, fun m hfuel => ?_⟩
            rw [readValue.eq_def]
            simp only [hs, hc1, if_true, hs2, hd, if_false]
            rw [hm m (by simp only at hfuel; omega)]
            rfl
      · simp only [hc2, if_false] at h
        have hrest : r.2.length < cs.length := by
          by_cases hc3 : c = '"'
          · simp only [hc3, if_true] at h
            obtain ⟨sr, hsr, rfl⟩ :=
              map_eq_some_pair (f := fun s => JsonVariant.string (String.mk s)) h
            have := @scanString_length rest sr.1 sr.2 hsr
            simp only; omega
          · simp only [hc3, if_false] at h
            have hcons : (c :: rest).length ≤ cs.length := by
              simp only [List.length_cons]; omega
            obtain ⟨v, rest'⟩ := r
            split at h
            · have := scanWord_length (by decide) h; simp only; omega
            · split at h
              · have := scanWord_length (by decide) h; simp only; omega
              · split at h
                · have := scanWord_length (by decide) h; simp only; omega
                · have := scanNumber_length h; simp only; omega
        refine ⟨hrest, fun m _ => ?_⟩
        rw [readValue.eq_def]
        simp only [hs, hc1, hc2, if_false]
        exact h

theorem map_cons_eq_some {α : Type} {o : Option (List α × List Char)} {a : α}
    {r : List α × List Char} (h : o.map (fun x => (a :: x.1, x.2)) = some r) :
    ∃ x, o = some x ∧ r = (a :: x.1, x.2) := by
  cases o with
  | none => simp at h
  | some x => exact ⟨x, rfl, by simpa using h.symm⟩

theorem readMembers_fuel_step (n : Nat)
    (ihv : ∀ cs r, readValue n cs = some r →
      r.2.length < cs.length ∧ ∀ m, cs.length - r.2.length ≤ m → readValue m cs = some r)
    (ihm : ∀ cs r, readMembers n cs = some r →
      r.2.length < cs.length ∧ ∀ m, cs.length - r.2.length ≤ m → readMembers m cs = some r)
    (cs : List Char) (r : List (String × JsonVariant) × List Char)
    (h : readMembers (n + 1) cs = some r) :
    r.2.length < cs.length ∧ ∀ m, cs.length - r.2.length ≤ m → readMembers m cs = some r := by
  rw [readMembers.eq_def] at h
  simp only at h
  suffices hkey : r.2.length < cs.length ∧
      ∀ m, cs.length - r.2.length ≤ m + 1 → readMembers (m + 1) cs = some r by
    refine ⟨hkey.1, fun m hm => ?_⟩
    cases m with
    | zero => have := hkey.1; omega
    | succ m => exact hkey.2 m hm
  cases hs : skipSpace cs with
  | nil => simp [hs] at h
  | cons c rest =>
    have hlt := skipSpace_cons_length hs
    simp only [hs] at h
    by_cases hc : c = '"'
    · subst hc
      simp only [if_true] at h
      cases hk : scanString rest with
      | none => simp [hk] at h
      | some kr =>
        obtain ⟨key, rest1⟩ := kr
        have hkl := scanString_length hk
        simp only [hk] at h
        cases hs1 : skipSpace rest1 with
        | nil => simp [hs1] at h
        | cons colon rest2 =>
          have hlt1 := skipSpace_cons_length hs1
          simp only [hs1] at h
          by_cases hcolon : colon = ':'
          · subst hcolon
            simp only [if_true] at h
            cases hv : readValue n rest2 with
            | none => simp [hv] at h
            | some vr =>
              obtain ⟨value, rest3⟩ := vr
              obtain ⟨hvl, hvm⟩ := ihv _ _ hv
              simp only at hvl hvm
              simp only [hv] at h
              cases hs3 : skipSpace rest3 with
              | nil => simp [hs3] at h
              | cons sep rest4 =>
                have hlt3 := skipSpace_cons_length hs3
                simp only [hs3] at h
                by_cases hsep : sep = ','
                · subst hsep
                  simp only [if_true] at h
                  obtain ⟨mr, hmr, rfl⟩ := map_cons_eq_some h
                  obtain ⟨hml, hmm⟩ := ihm _ _ hmr
                  refine ⟨by simp only; omega, fun m hfuel => ?_⟩
                  simp only at hfuel
                  rw [readMembers.eq_def]
                  simp only [hs, if_true, hk, hs1]
                  rw [hvm m (by omega)]
                  simp only [hs3, if_true]
                  rw [hmm m (by omega)]
                  rfl
                · simp only [hsep, if_false] at h
                  by_cases hclose : sep = '\x7d'
                  · subst hclose
                    simp only [if_true, Option.some.injEq] at h
                    subst h
                    refine ⟨by simp only; omega, fun m hfuel => ?_⟩
                    simp only at hfuel
                    rw [readMembers.eq_def]
                    simp only [hs, if_true, hk, hs1]
                    rw [hvm m (by omega)]
                    simp only [hs3, hsep, if_false, if_true]
                  · simp [hclose] at h
          · simp [hcolon] at h
    · simp [hc] at h

theorem readItems_fuel_step (n : Nat)
    (ihv : ∀ cs r, readValue n cs = some r →
      r.2.length < cs.length ∧ ∀ m, cs.length - r.2.length ≤ m → readValue m cs = some r)
    (ihi : ∀ cs r, readItems n cs = some r →
      r.2.length < cs.length ∧ ∀ m, cs.length - r.2.length ≤ m → readItems m cs = some r)
    (cs : List Char) (r : List JsonVariant × List Char)
    (h : readItems (n + 1) cs = some r) :
    r.2.length < cs.length ∧ ∀ m, cs.length - r.2.length ≤ m → readItems m cs = some r := by
  rw [readItems.eq_def] at h
  simp only at h
  suffices hkey : r.2.length < cs.length ∧
      ∀ m, cs.length - r.2.length ≤ m + 1 → readItems (m + 1) cs = some r by
    refine ⟨hkey.1, fun m hm => ?_⟩
    cases m with
    | zero => have := hkey.1; omega
    | succ m => exact hkey.2 m hm
  cases hv : readValue n cs with
  | none => simp [hv] at h
  | some vr =>
    obtain ⟨value, rest⟩ := vr
    obtain ⟨hvl, hvm⟩ := ihv _ _ hv
    simp only at hvl hvm
    simp only [hv] at h
    cases hs : skipSpace rest with
    | nil => simp [hs] at h
    | cons sep rest2 =>
      have hlt := skipSpace_cons_length hs
      simp only [hs] at h
      by_cases hsep : sep = ','
      · subst hsep
        simp only [if_true] at h
        obtain ⟨ir, hir, rfl⟩ := map_cons_eq_some h
        obtain ⟨hil, him⟩ := ihi _ _ hir
        refine ⟨by simp only; omega, fun m hfuel => ?_⟩
        simp only at hfuel
        rw [readItems.eq_def]
        simp only
        rw [hvm m (by omega)]
        simp only [hs, if_true]
        rw [him m (by omega)]
        rfl
      · simp only [hsep, if_false] at h
        by_cases hclose : sep = ']'
        · subst hclose
          simp only [if_true, Option.some.injEq] at h
          subst h
          refine ⟨by simp only; omega, fun m hfuel => ?_⟩
          simp only at hfuel
          rw [readItems.eq_def]
          simp only
          rw [hvm m (by omega)]
          simp only [hs, hsep, if_false, if_true]
        · simp [hclose] at h

/-- Fuel is immaterial once it covers the characters consumed: a successful read consumes
at least one character and is reproduced by every fuel not below the number of
characters it consumed. -/
theorem read_fuel (n : Nat) :
    (∀ cs r, readValue n cs = some r →
      r.2.length < cs.length ∧ ∀ m, cs.length - r.2.length ≤ m → readValue m cs = some r)
    ∧ (∀ cs r, readMembers n cs = some r →
      r.2.length < cs.length ∧ ∀ m, cs.length - r.2.length ≤ m → readMembers m cs = some r)
    ∧ (∀ cs r, readItems n cs = some r →
      r.2.length < cs.length ∧ ∀ m, cs.length - r.2.length ≤ m → readItems m cs = some r) := by
  induction n with
  | zero =>
    refine ⟨fun cs r h => ?_, fun cs r h => ?_, fun cs r h => ?_⟩
    · rw [readValue.eq_def] at h; simp at h
    · rw [readMembers.eq_def] at h; simp at h
    · rw [readItems.eq_def] at h; simp at h
  | succ n ih =>
    exact ⟨readValue_fuel_step n ih.2.1 ih.2.2, readMembers_fuel_step n ih.1 ih.2.1,
      readItems_fuel_step n ih.1 ih.2.2⟩

/-- The reader `parse` does not depend on its fuel: a text denotes `value` exactly when some
fuel reads `value` from it with nothing but white space left. -/
theorem parse_eq_some_iff (text : String) (value : JsonVariant) :
    parse text = some value
      ↔ ∃ fuel rest, readValue fuel text.data = some (value, rest) ∧ skipSpace rest = [] := by
  constructor
  · intro h
    unfold parse at h
    cases hr : readValue (text.length + 1) text.data with
    | none => simp [hr] at h
    | some vr =>
      obtain ⟨v, rest⟩ := vr
      simp only [hr] at h
      split at h
      · rename_i hempty
        simp only [Option.some.injEq] at h
        subst h
        exact ⟨_, rest, hr, by simpa using hempty⟩
      · simp at h
  · rintro ⟨fuel, rest, hr, hrest⟩
    have hfull := ((read_fuel fuel).1 _ _ hr).2 (text.length + 1)
      (by show text.data.length - _ ≤ text.data.length + 1; omega)
    unfold parse
    simp [hfull, hrest]

end JsonReader

/-! ## Registration -/

section Registration

open AgentHub Spec JsonText

/-- C6 (failing input): the sample agent, WiFi connected, a gateway answering
`{"result":"0x1"}`. For the arguments (`ipfs://QmMeta`, `1000`) and for (`ipfs://other`, `5`)
alike, `registerAgent` posts the same transaction whose call data is the literal `0x...`,
and returns true. -/
theorem registerAgent_posts_placeholder :
    (AgentHub.sample.registerAgent Platform.sample "ipfs://QmMeta" "1000"
        (Env.sample (fun k => k) ⟨200, "\x7b\"result\":\"0x1\"\x7d"⟩)).1 = true
    ∧ (AgentHub.sample.registerAgent Platform.sample "ipfs://QmMeta" "1000"
        (Env.sample (fun k => k) ⟨200, "\x7b\"result\":\"0x1\"\x7d"⟩)).2.requests
      = [{ url := "https://api.avax-test.network/ext/bc/C/rpc"
           headers := [("Content-Type", "application/json")]
           body := "\x7b\"jsonrpc\":\"2.0\",\"method\":\"eth_sendTransaction\",\"params\":[\x7b\"to\":\"0x6750Ed798186b4B5a7441D0f46Dd36F372441306\",\"data\":\"0x...\"\x7d],\"id\":1\x7d" }]
    ∧ (AgentHub.sample.registerAgent Platform.sample "ipfs://other" "5"
        (Env.sample (fun k => k) ⟨200, "\x7b\"result\":\"0x1\"\x7d"⟩)).2.requests
      = (AgentHub.sample.registerAgent Platform.sample "ipfs://QmMeta" "1000"
        (Env.sample (fun k => k) ⟨200, "\x7b\"result\":\"0x1\"\x7d"⟩)).2.requests
    ∧ (AgentHub.sample.registerAgent Platform.sample "ipfs://QmMeta" "1000"
        (Env.sample (fun k => k) ⟨200, "\x7b\"result\":\"0x1\"\x7d"⟩)).2.signLog = [] := by
  decide

end Registration

/-! ## The private key -/

section PrivateKey

open AgentHub Spec

theorem sameObservations_privateKey (p : Platform) (a : AgentHub) (key : String) :
    SameObservations p { a with privateKey := key } a :=
  ⟨fun _ _ _ => rfl, fun _ _ _ _ => rfl, fun _ _ _ _ => rfl, fun _ _ _ => rfl,
    fun _ _ _ => rfl, rfl, rfl⟩

/-- C8: two agents that differ only in the private key passed to `begin` cannot be told
apart. For identical arguments and an identical environment, `registerAgent`,
`x402Request`, `sendSensorData` (each overload), `getAgentId` and `isInitialized` return
the same result and leave the same environment, in particular the same POST requests
(URL, headers, body); the same holds after a following `setRegistryAddress`. -/
theorem privateKey_never_observable (p : Platform) (self : AgentHub)
    (agentId key1 key2 network : String) :
    SameObservations p (self.begin agentId key1 network) (self.begin agentId key2 network)
    ∧ SameObservations p (self.begin2 agentId key1) (self.begin2 agentId key2)
    ∧ ∀ address : String,
        SameObservations p ((self.begin agentId key1 network).setRegistryAddress address)
          ((self.begin agentId key2 network).setRegistryAddress address) :=
  ⟨sameObservations_privateKey p (self.begin agentId key2 network) key1,
    sameObservations_privateKey p (self.begin2 agentId key2) key1,
    fun address =>
      sameObservations_privateKey p ((self.begin agentId key2 network).setRegistryAddress address)
        key1⟩

end PrivateKey
